import Mathlib

/-!
Shallow embedding of the P2P campus compute grid (manager store, dispatch,
job lifecycle, worker sandbox result assembly, and output-file saving),
translated from `src/manager/database.py`, `src/manager/server.py` and
`src/worker/client.py`.  SQLite tables become lists of records, the SQL
statements become list operations, timestamps become integer ticks supplied
by the caller, and uuid generation becomes an explicit identifier argument.
-/

namespace P2PGrid

/-- Row of the `users` table (`database.py`, `init_db`). -/
structure User where
  id : String
  username : String
  passwordHash : String
  email : Option String
  credits : Int
  role : String
deriving DecidableEq

/-- Row of the `workers` table. -/
structure Worker where
  id : String
  name : String
  ownerId : Option String
  status : String
  cpuCores : Int
  cpuModel : String
  ramGb : ℚ
  gpuName : Option String
  gpuMemoryGb : Option ℚ
  hasDocker : Bool
  totalJobsCompleted : Int
  totalCreditsEarned : Int
deriving DecidableEq

/-- Row of the `jobs` table. -/
structure Job where
  id : String
  title : String
  submitterId : String
  workerId : Option String
  status : String
  priority : Int
  code : String
  requirements : Option String
  cpuRequired : Int
  ramRequiredGb : ℚ
  gpuRequired : Int
  timeoutSeconds : Int
  creditCost : Int
  creditReward : Int
  resultOutput : Option String
  errorLog : Option String
  startedAt : Option Int
  completedAt : Option Int
deriving DecidableEq

/-- Row of the `job_queue` table (`queued_at` is an integer tick). -/
structure QueueEntry where
  jobId : String
  priority : Int
  queuedAt : Int
deriving DecidableEq

/-- Row of the `credit_transactions` table. -/
structure CreditTransaction where
  userId : String
  amount : Int
  transactionType : String
  jobId : Option String
  description : Option String
deriving DecidableEq

/-- Row of the `activity_logs` table. -/
structure ActivityLog where
  eventType : String
  actorId : Option String
  details : String
deriving DecidableEq

/-- The whole SQLite database: one list per table. -/
structure Store where
  users : List User
  workers : List Worker
  jobs : List Job
  jobQueue : List QueueEntry
  transactions : List CreditTransaction
  activityLogs : List ActivityLog
deriving DecidableEq

/-- The freshly initialised database (`init_db` creates empty tables). -/
def initialStore : Store := ⟨[], [], [], [], [], []⟩

/-- database.log_activity: append one row to `activity_logs`. -/
def log_activity (eventType : String) (actorId : Option String) (details : String)
    (s : Store) : Store :=
  { s with activityLogs := s.activityLogs ++ [⟨eventType, actorId, details⟩] }

/-- database.get_user_by_id: `SELECT * FROM users WHERE id = ?` (first row). -/
def get_user_by_id (userId : String) (s : Store) : Option User :=
  s.users.find? (fun u => u.id == userId)

/-- database.get_user_by_username. -/
def get_user_by_username (username : String) (s : Store) : Option User :=
  s.users.find? (fun u => u.username == username)

/-- database.create_user: insert a user with 100 starting credits and log the
registration.  A duplicate username (UNIQUE) or duplicate id (PRIMARY KEY)
raises `sqlite3.IntegrityError`, which the source catches and turns into
`None` with no mutation.  No credit transaction is recorded for the 100
starting credits. -/
def create_user (username passwordHash : String) (email : Option String)
    (role : String) (userId : String) (s : Store) : Option String × Store :=
  if s.users.any (fun u => u.username == username || u.id == userId) then
    (none, s)
  else
    (some userId,
      log_activity "user_registered" (some userId) ("New " ++ role ++ ": " ++ username)
        { s with users := s.users ++ [⟨userId, username, passwordHash, email, 100, role⟩] })

/-- database.update_user_credits: read the balance, refuse if it would go
negative, otherwise set the new balance and append one transaction row. -/
def update_user_credits (userId : String) (amount : Int) (transactionType : String)
    (jobId : Option String) (description : Option String) (s : Store) :
    Except String Int × Store :=
  match s.users.find? (fun u => u.id == userId) with
  | some user =>
    let newBalance := user.credits + amount
    if newBalance < 0 then (Except.error "Insufficient credits", s)
    else
      (Except.ok newBalance,
        { s with
          users := s.users.map (fun u =>
            if u.id == userId then { u with credits := newBalance } else u),
          transactions := s.transactions ++
            [⟨userId, amount, transactionType, jobId, description⟩] })
  | none => (Except.error "User not found", s)

/-- database.register_worker: insert a worker row with status `offline` and
zeroed lifetime counters, then log the registration. -/
def register_worker (name : String) (ownerId : Option String) (cpuCores : Int)
    (cpuModel : String) (ramGb : ℚ) (gpuName : Option String)
    (gpuMemoryGb : Option ℚ) (hasDocker : Bool) (workerId : String)
    (s : Store) : String × Store :=
  (workerId,
    log_activity "worker_registered" ownerId ("Worker: " ++ name)
      { s with workers := s.workers ++
        [⟨workerId, name, ownerId, "offline", cpuCores, cpuModel, ramGb,
          gpuName, gpuMemoryGb, hasDocker, 0, 0⟩] })

/-- server.ManagerServer._verify_owner: the owner token is looked up as a
username; an unknown token resolves to a null owner. -/
def verify_owner (token : String) (s : Store) : Option String :=
  if token == "" then none
  else (get_user_by_username token s).map (fun u => u.id)

/-- database.pause_worker: `UPDATE workers SET status = 'paused' WHERE id = ?`. -/
def pause_worker (workerId : String) (s : Store) : Bool × Store :=
  (s.workers.any (fun w => w.id == workerId),
    { s with workers := s.workers.map (fun w =>
        if w.id == workerId then { w with status := "paused" } else w) })

/-- database.resume_worker: `UPDATE workers SET status = 'online' WHERE id = ?`. -/
def resume_worker (workerId : String) (s : Store) : Bool × Store :=
  (s.workers.any (fun w => w.id == workerId),
    { s with workers := s.workers.map (fun w =>
        if w.id == workerId then { w with status := "online" } else w) })

/-- Python `int(q)` truncates toward zero. -/
def pyInt (q : ℚ) : Int := if 0 ≤ q then ⌊q⌋ else ⌈q⌉

/-- database.calculate_job_cost.  `ram * 1` goes through Python `int()`
(truncation); `timeout // 60` is Python floor division, `Int.fdiv`. -/
def calculate_job_cost (cpu : Int) (ram : ℚ) (gpu : Int) (timeout : Int) : Int :=
  let baseCost : Int := 5
  let cpuCost := cpu * 2
  let ramCost := pyInt (ram * 1)
  let gpuCost := gpu * 10
  let timeCost := Int.fdiv timeout 60
  baseCost + cpuCost + ramCost + gpuCost + timeCost

/-- database.create_job: compute the cost, refuse when the submitter is
missing or short of credits, otherwise atomically debit the submitter,
insert the job row (status `pending`, reward = cost), insert the queue row
and append the `job_submitted` transaction.  A duplicate job id would
violate the `jobs` PRIMARY KEY / `job_queue` UNIQUE constraint, aborting
the uncommitted transaction with no mutation. -/
def create_job (title submitterId code : String) (requirements : Option String)
    (cpuRequired : Int) (ramRequired : ℚ) (gpuRequired : Int) (timeout : Int)
    (priority : Int) (jobId : String) (now : Int) (s : Store) :
    (Option String × Option String) × Store :=
  let creditCost := calculate_job_cost cpuRequired ramRequired gpuRequired timeout
  match get_user_by_id submitterId s with
  | none => ((none, some "Insufficient credits"), s)
  | some user =>
    if user.credits < creditCost then ((none, some "Insufficient credits"), s)
    else if s.jobs.any (fun j => j.id == jobId) ||
            s.jobQueue.any (fun q => q.jobId == jobId) then
      ((none, some "IntegrityError"), s)
    else
      ((some jobId, none),
        log_activity "job_created" (some submitterId) ("Job: " ++ title)
          { s with
            users := s.users.map (fun u =>
              if u.id == submitterId then { u with credits := u.credits - creditCost } else u),
            jobs := s.jobs ++
              [{ id := jobId, title := title, submitterId := submitterId,
                 workerId := none, status := "pending", priority := priority,
                 code := code, requirements := requirements,
                 cpuRequired := cpuRequired, ramRequiredGb := ramRequired,
                 gpuRequired := gpuRequired, timeoutSeconds := timeout,
                 creditCost := creditCost, creditReward := creditCost,
                 resultOutput := none, errorLog := none,
                 startedAt := none, completedAt := none }],
            jobQueue := s.jobQueue ++ [⟨jobId, priority, now⟩],
            transactions := s.transactions ++
              [⟨submitterId, -creditCost, "job_submitted", some jobId,
                some ("Submitted job: " ++ title)⟩] })

/-- Strict ordering used by the dispatch query: `a` ranks strictly before `b`
under `ORDER BY q.priority DESC, q.queued_at ASC`. -/
def ltEntry (a b : QueueEntry) : Prop :=
  b.priority < a.priority ∨ (a.priority = b.priority ∧ a.queuedAt < b.queuedAt)

/-- Boolean form of `ltEntry`. -/
def betterEntry (a b : QueueEntry) : Bool :=
  decide (b.priority < a.priority) ||
    (a.priority == b.priority && decide (a.queuedAt < b.queuedAt))

/-- WHERE clause of the dispatch query in database.get_next_job_for_worker:
pending status, cpu and ram fit, and `j.gpu_required = 0 OR gpu_name IS NOT
NULL` with the worker's `gpu_name` bound to the placeholder. -/
def canRun (w : Worker) (j : Job) : Bool :=
  j.status == "pending" &&
    decide (j.cpuRequired ≤ w.cpuCores) &&
    decide (j.ramRequiredGb ≤ w.ramGb) &&
    (j.gpuRequired == 0 || w.gpuName.isSome)

/-- The `jobs JOIN job_queue ON j.id = q.job_id` relation as a list of pairs. -/
def joinQueue : List Job → List QueueEntry → List (Job × QueueEntry)
  | [], _ => []
  | j :: js, queue =>
    (queue.filter (fun q => q.jobId == j.id)).map (fun q => (j, q)) ++ joinQueue js queue

/-- Rows satisfying the dispatch query's WHERE clause for worker `w`. -/
def dispatchCandidates (w : Worker) (s : Store) : List (Job × QueueEntry) :=
  (joinQueue s.jobs s.jobQueue).filter (fun p => canRun w p.1)

/-- Keep the better-ranked of two candidate rows (ties keep the first). -/
def pickBetter (acc q : Job × QueueEntry) : Job × QueueEntry :=
  if betterEntry q.2 acc.2 then q else acc

/-- ORDER BY `q.priority DESC, q.queued_at ASC` LIMIT 1: keep a running
maximum over the candidate rows (ties keep the earlier row). -/
def selectBest : List (Job × QueueEntry) → Option (Job × QueueEntry)
  | [] => none
  | p :: ps => some (ps.foldl pickBetter p)

/-- database.get_next_job_for_worker: look the worker up (no status check),
run the dispatch query, and if a row is found mark the job `running` with
this worker and start time, delete its queue rows and log the start.  The
returned row is the job as selected, i.e. still showing status `pending`. -/
def get_next_job_for_worker (workerId : String) (now : Int) (s : Store) :
    Option Job × Store :=
  match s.workers.find? (fun w => w.id == workerId) with
  | none => (none, s)
  | some w =>
    match selectBest (dispatchCandidates w s) with
    | none => (none, s)
    | some (job, _) =>
      (some job,
        log_activity "job_started" (some workerId) ("Job " ++ job.id ++ " started")
          { s with
            jobs := s.jobs.map (fun j =>
              if j.id == job.id then
                { j with status := "running", workerId := some workerId,
                         startedAt := some now }
              else j),
            jobQueue := s.jobQueue.filter (fun q => q.jobId != job.id) })

/-- database.complete_job: if the job row is missing return `False` with no
mutation; otherwise overwrite status (`completed` on success else `failed`),
result_output, error_log and completed_at — with no check of the previous
status — and, on success with an assigned worker whose owner exists, credit
the owner by the job's reward, append the `job_completed` transaction and
bump the worker's lifetime counters. -/
def complete_job (jobId : String) (resultOutput : Option String) (success : Bool)
    (errorLog : Option String) (now : Int) (s : Store) : Bool × Store :=
  match s.jobs.find? (fun j => j.id == jobId) with
  | none => (false, s)
  | some job =>
    let status := if success then "completed" else "failed"
    let s1 := { s with jobs := s.jobs.map (fun j =>
      if j.id == jobId then
        { j with status := status, resultOutput := resultOutput,
                 errorLog := errorLog, completedAt := some now }
      else j) }
    let s2 :=
      if success then
        match job.workerId with
        | some wid =>
          match s.workers.find? (fun w => w.id == wid) with
          | some worker =>
            match worker.ownerId with
            | some ownerId =>
              { s1 with
                users := s1.users.map (fun u =>
                  if u.id == ownerId then { u with credits := u.credits + job.creditReward } else u),
                transactions := s1.transactions ++
                  [⟨ownerId, job.creditReward, "job_completed", some jobId,
                    some ("Completed job: " ++ job.title)⟩],
                workers := s1.workers.map (fun w =>
                  if w.id == wid then
                    { w with totalJobsCompleted := w.totalJobsCompleted + 1,
                             totalCreditsEarned := w.totalCreditsEarned + job.creditReward }
                  else w) }
            | none => s1
          | none => s1
        | none => s1
      else s1
    (true, log_activity "job_completed" job.workerId ("Job " ++ jobId ++ ": " ++ status) s2)

/-- One store-mutating operation of the system, as invoked by the manager
server and dashboard.  Worker registration resolves the owner token the way
`server.handle_worker` does before calling `database.register_worker`. -/
inductive Op where
  | createUser (username passwordHash : String) (email : Option String)
      (role : String) (userId : String)
  | updateCredits (userId : String) (amount : Int) (transactionType : String)
      (jobId : Option String) (description : Option String)
  | submitJob (title submitterId code : String) (requirements : Option String)
      (cpuRequired : Int) (ramRequired : ℚ) (gpuRequired : Int) (timeout : Int)
      (priority : Int) (jobId : String) (now : Int)
  | registerWorker (name ownerToken : String) (cpuCores : Int) (cpuModel : String)
      (ramGb : ℚ) (gpuName : Option String) (gpuMemoryGb : Option ℚ)
      (hasDocker : Bool) (workerId : String)
  | dispatch (workerId : String) (now : Int)
  | completeJob (jobId : String) (resultOutput : Option String) (success : Bool)
      (errorLog : Option String) (now : Int)
  | pauseWorker (workerId : String)
  | resumeWorker (workerId : String)
deriving DecidableEq

/-- State transition of one operation (result values are discarded). -/
def applyOp : Op → Store → Store
  | .createUser un pw em role uid, s => (create_user un pw em role uid s).2
  | .updateCredits uid amt ty jid desc, s => (update_user_credits uid amt ty jid desc s).2
  | .submitJob t sub code req cpu ram gpu tmo pr jid now, s =>
      (create_job t sub code req cpu ram gpu tmo pr jid now s).2
  | .registerWorker n tok cc cm ram gn gm hd wid, s =>
      (register_worker n (verify_owner tok s) cc cm ram gn gm hd wid s).2
  | .dispatch wid now, s => (get_next_job_for_worker wid now s).2
  | .completeJob jid out succ err now, s => (complete_job jid out succ err now s).2
  | .pauseWorker wid, s => (pause_worker wid s).2
  | .resumeWorker wid, s => (resume_worker wid s).2

/-- Run a sequence of operations from a starting store. -/
def applyOps (ops : List Op) (s : Store) : Store := ops.foldl (fun st o => applyOp o st) s

/-- Signed sum of the transaction amounts recorded for one user. -/
def txSum (txs : List CreditTransaction) (userId : String) : Int :=
  ((txs.filter (fun t => t.userId == userId)).map (fun t => t.amount)).sum

/-! Worker sandbox (`worker/client.py`, SandboxExecutor). -/

/-- Result shape returned by SandboxExecutor.execute (files abstracted to
their names). -/
structure SandboxResult where
  success : Bool
  output : String
  error : Option String
  files : List String
deriving DecidableEq

/-- Outcome of the subprocess run inside `_execute_restricted`: normal exit
with captured stdout/stderr and collected files, `subprocess.TimeoutExpired`
(whose exception object carries the stdout captured so far), or any other
internal exception. -/
inductive RunOutcome where
  | finished (returncode : Int) (stdout stderr : String) (files : List String)
  | timedOut (partialStdout : String)
  | internalError (message : String)
deriving DecidableEq

/-- Result assembly of SandboxExecutor._execute_restricted: on a normal exit,
stdout and stderr are concatenated with a `[STDERR]` delimiter and the error
field holds stderr exactly when the exit code is non-zero; on
`TimeoutExpired` or any other exception the output field is the empty string
(the stdout carried by the exception is discarded). -/
def execute_restricted (timeout : Int) : RunOutcome → SandboxResult
  | .finished rc out err files =>
    { success := rc == 0,
      output := out ++ (if err != "" then "\n[STDERR]\n" ++ err else ""),
      error := if rc != 0 then some err else none,
      files := files }
  | .timedOut _ =>
    { success := false, output := "",
      error := some ("Job timed out after " ++ toString timeout ++ " seconds"),
      files := [] }
  | .internalError msg =>
    { success := false, output := "", error := some msg, files := [] }

/-- Outcome of `container.wait` inside `_execute_docker`: a status object
with the exit code and the container logs, or an exception from the wait
(timeout included). -/
inductive DockerOutcome where
  | waited (statusCode : Int) (logs : String) (files : List String)
  | waitFailed (message : String)
deriving DecidableEq

/-- Result assembly of SandboxExecutor._execute_docker. -/
def execute_docker : DockerOutcome → SandboxResult
  | .waited code logs files =>
    { success := code == 0, output := logs,
      error := if code == 0 then none else some ("Exit code: " ++ toString code),
      files := files }
  | .waitFailed msg =>
    { success := false, output := "",
      error := some ("Timeout or error: " ++ msg), files := [] }

/-- A sandbox execution in either mode. -/
inductive SandboxRun where
  | restricted (timeout : Int) (o : RunOutcome)
  | docker (o : DockerOutcome)
deriving DecidableEq

/-- SandboxExecutor.execute: mode selection. -/
def runSandbox : SandboxRun → SandboxResult
  | .restricted t o => execute_restricted t o
  | .docker o => execute_docker o

/-! Output-file saving (`server.ManagerServer._save_job_files`). -/

/-- One entry of a `job_result` message's `files` list; `contentValid` is
whether `base64.b64decode` of its content succeeds (the only thing the
per-file try/except can reject). -/
structure JobFileMsg where
  filename : String
  contentValid : Bool
deriving DecidableEq

/-- Whether a POSIX path is absolute (`startswith('/')`). -/
def isAbsPath (s : String) : Bool :=
  match s.toList with
  | c :: _ => c == '/'
  | [] => false

/-- Whether a path ends with a slash. -/
def endsWithSlash (s : String) : Bool :=
  match s.toList.getLast? with
  | some c => c == '/'
  | none => false

/-- POSIX `os.path.join` on two components. -/
def ospJoin (a b : String) : String :=
  if isAbsPath b then b
  else if a == "" || endsWithSlash a then a ++ b
  else a ++ "/" ++ b

/-- server.ManagerServer._save_job_files: the list of filesystem paths
written for a job result's files.  Each filename is joined onto
`job_outputs/<job_id>` with `os.path.join` and written as-is; no filename
validation of any kind is performed. -/
def save_job_files (jobId : String) (files : List JobFileMsg) : List String :=
  files.filterMap (fun f =>
    if f.contentValid then some (ospJoin (ospJoin "job_outputs" jobId) f.filename)
    else none)

/-- Path components of a slash-separated path string. -/
def splitSlashAux : List Char → List Char → List String
  | [], cur => [String.mk cur.reverse]
  | c :: cs, cur =>
    if c = '/' then String.mk cur.reverse :: splitSlashAux cs []
    else splitSlashAux cs (c :: cur)

/-- Split a path into its slash-separated components. -/
def pathComps (p : String) : List String := splitSlashAux p.toList []

/-- Resolve `..`, `.` and empty components the way the filesystem does,
yielding the list of effective directory components. -/
def resolveDots (comps : List String) : List String :=
  comps.foldl (fun acc c =>
    if c = ".." then acc.dropLast
    else if c = "" then acc
    else if c = "." then acc
    else acc ++ [c]) []

/-! Specification-level predicates. -/

/-- Postcondition of a dispatch call for a worker row `w`: any returned job
is a pending, capability-matching job with a queue row that no candidate
row beats under `priority DESC, queued_at ASC`, and nothing is returned
only when no candidate row exists. -/
def dispatchSpec (workerId : String) (now : Int) (s : Store) (w : Worker) : Prop :=
  (∀ j, (get_next_job_for_worker workerId now s).1 = some j →
    j ∈ s.jobs ∧ j.status = "pending" ∧ j.cpuRequired ≤ w.cpuCores ∧
    j.ramRequiredGb ≤ w.ramGb ∧ (j.gpuRequired = 0 ∨ w.gpuName.isSome = true) ∧
    (w.gpuName = none → j.gpuRequired = 0) ∧
    ∃ q, q ∈ s.jobQueue ∧ q.jobId = j.id ∧
      ∀ p ∈ dispatchCandidates w s, ¬ ltEntry p.2 q) ∧
  ((get_next_job_for_worker workerId now s).1 = none → dispatchCandidates w s = [])

/-- Postcondition of a successful job submission: the call reports the new
job id with no error, the submitter is debited by exactly the computed
cost, one pending job row with reward = cost is inserted, one queue row is
inserted, and one `job_submitted` transaction of minus the cost is
appended. -/
def submitSpec (title submitterId code : String) (requirements : Option String)
    (cpuRequired : Int) (ramRequired : ℚ) (gpuRequired : Int) (timeout : Int)
    (priority : Int) (jobId : String) (now : Int) (s : Store) : Prop :=
  let cost := calculate_job_cost cpuRequired ramRequired gpuRequired timeout
  let r := create_job title submitterId code requirements cpuRequired ramRequired
    gpuRequired timeout priority jobId now s
  r.1 = (some jobId, none) ∧
  r.2.users = s.users.map (fun u =>
    if u.id == submitterId then { u with credits := u.credits - cost } else u) ∧
  (∃ newJob, r.2.jobs = s.jobs ++ [newJob] ∧ newJob.id = jobId ∧
    newJob.status = "pending" ∧ newJob.submitterId = submitterId ∧
    newJob.creditCost = cost ∧ newJob.creditReward = cost) ∧
  r.2.jobQueue = s.jobQueue ++ [⟨jobId, priority, now⟩] ∧
  r.2.transactions = s.transactions ++
    [⟨submitterId, -cost, "job_submitted", some jobId, some ("Submitted job: " ++ title)⟩]

/-- What actually holds of a failed sandbox execution: the error field is
populated, and the output field carries the captured stdout only in the
normal-exit cases; on a timeout or internal error it is empty. -/
def failedRunSpec (r : SandboxRun) : Prop :=
  (runSandbox r).error.isSome = true ∧
  (∀ t rc out err files, r = .restricted t (.finished rc out err files) →
    rc ≠ 0 ∧
    (runSandbox r).output = out ++ (if err != "" then "\n[STDERR]\n" ++ err else "") ∧
    (runSandbox r).error = some err) ∧
  (∀ t p, r = .restricted t (.timedOut p) → (runSandbox r).output = "") ∧
  (∀ t m, r = .restricted t (.internalError m) → (runSandbox r).output = "") ∧
  (∀ code logs files, r = .docker (.waited code logs files) →
    code ≠ 0 ∧ (runSandbox r).output = logs) ∧
  (∀ m, r = .docker (.waitFailed m) → (runSandbox r).output = "")

/-- Every credit transaction refers to an existing user. -/
def txUsersExist (s : Store) : Prop :=
  ∀ t ∈ s.transactions, ∃ u ∈ s.users, u.id = t.userId

/-- Every worker's owner, when set, is an existing user. -/
def ownersExist (s : Store) : Prop :=
  ∀ w ∈ s.workers, ∀ oid, w.ownerId = some oid → ∃ u ∈ s.users, u.id = oid

/-- Each user's balance is the 100-credit signup grant plus the signed sum
of that user's transactions. -/
def creditInv (s : Store) : Prop :=
  ∀ u ∈ s.users, u.credits = 100 + txSum s.transactions u.id

/-- The store invariant maintained by every operation. -/
def storeInv (s : Store) : Prop := txUsersExist s ∧ ownersExist s ∧ creditInv s

/-- A terminal job never re-enters the scheduler: every row carrying its id
is `completed` or `failed`. -/
def terminalAt (s : Store) (jobId : String) : Prop :=
  ∀ j ∈ s.jobs, j.id = jobId → (j.status = "completed" ∨ j.status = "failed")

/-! Concrete fixtures used by witnesses and counterexamples. -/

/-- A submitter with the default 100 starting credits. -/
def alice : User := ⟨"u1", "alice", "pw", none, 100, "user"⟩

/-- A worker-owner user. -/
def bob : User := ⟨"u2", "bob", "pw", none, 100, "user"⟩

/-- A user who has spent down to 10 credits. -/
def carol : User := ⟨"u3", "carol", "pw", none, 10, "user"⟩

/-- A worker whose durable status is `paused`. -/
def pausedWorker : Worker :=
  ⟨"w1", "paused-node", some "u2", "paused", 4, "cpu", 8, none, none, false, 0, 0⟩

/-- A small pending job that fits `pausedWorker`. -/
def smallJob : Job :=
  { id := "j1", title := "small", submitterId := "u1", workerId := none,
    status := "pending", priority := 5, code := "print(1)", requirements := none,
    cpuRequired := 1, ramRequiredGb := 1, gpuRequired := 0, timeoutSeconds := 60,
    creditCost := 9, creditReward := 9, resultOutput := none, errorLog := none,
    startedAt := none, completedAt := none }

/-- Store holding one paused worker and one queued job that fits it. -/
def pausedStore : Store :=
  ⟨[alice, bob], [pausedWorker], [smallJob], [⟨"j1", 5, 1⟩], [], []⟩

/-- An online worker without a GPU. -/
def plainWorker : Worker :=
  ⟨"w2", "plain-node", some "u2", "online", 4, "cpu", 8, none, none, false, 0, 0⟩

/-- A high-priority job that needs a GPU. -/
def gpuJob : Job :=
  { id := "jg", title := "gpu", submitterId := "u1", workerId := none,
    status := "pending", priority := 9, code := "print(2)", requirements := none,
    cpuRequired := 1, ramRequiredGb := 1, gpuRequired := 1, timeoutSeconds := 60,
    creditCost := 19, creditReward := 19, resultOutput := none, errorLog := none,
    startedAt := none, completedAt := none }

/-- A lower-priority CPU-only job. -/
def cpuJob : Job :=
  { id := "jc", title := "cpu", submitterId := "u1", workerId := none,
    status := "pending", priority := 5, code := "print(3)", requirements := none,
    cpuRequired := 1, ramRequiredGb := 1, gpuRequired := 0, timeoutSeconds := 60,
    creditCost := 9, creditReward := 9, resultOutput := none, errorLog := none,
    startedAt := none, completedAt := none }

/-- Store where the only worker lacks a GPU while the best-ranked queued job
requires one. -/
def gateStore : Store :=
  ⟨[alice, bob], [plainWorker], [gpuJob, cpuJob], [⟨"jg", 9, 1⟩, ⟨"jc", 5, 2⟩], [], []⟩

/-- A job already completed, assigned to `w1` whose owner is `bob`. -/
def doneJob : Job :=
  { id := "jd", title := "done", submitterId := "u1", workerId := some "w1",
    status := "completed", priority := 5, code := "print(4)", requirements := none,
    cpuRequired := 1, ramRequiredGb := 1, gpuRequired := 0, timeoutSeconds := 60,
    creditCost := 8, creditReward := 8, resultOutput := some "out", errorLog := none,
    startedAt := some 2, completedAt := some 3 }

/-- The worker that ran `doneJob`. -/
def doneWorker : Worker :=
  ⟨"w1", "node", some "u2", "online", 4, "cpu", 8, none, none, false, 1, 8⟩

/-- Store holding the terminal job `doneJob`. -/
def doneStore : Store := ⟨[alice, bob], [doneWorker], [doneJob], [], [], []⟩

/-- Store with only the two plain users. -/
def usersStore : Store := ⟨[alice, carol], [], [], [], [], []⟩

/-- The job row create_job inserts on its success path. -/
def submittedJob (title submitterId code : String) (req : Option String) (cpu : Int)
    (ram : ℚ) (gpu timeout priority : Int) (jobId : String) : Job :=
  { id := jobId, title := title, submitterId := submitterId, workerId := none,
    status := "pending", priority := priority, code := code, requirements := req,
    cpuRequired := cpu, ramRequiredGb := ram, gpuRequired := gpu,
    timeoutSeconds := timeout,
    creditCost := calculate_job_cost cpu ram gpu timeout,
    creditReward := calculate_job_cost cpu ram gpu timeout,
    resultOutput := none, errorLog := none, startedAt := none, completedAt := none }

/-! Theorems. -/

/-- C1: the manager's file-saving step performs no filename validation: a
filename containing `..` is not skipped — it is written, and the written
path resolves outside `job_outputs/<job_id>/`. -/
theorem save_job_files_writes_traversal :
    save_job_files "abc" [⟨"../../secret.txt", true⟩] =
      ["job_outputs/abc/../../secret.txt"] ∧
    resolveDots (pathComps "job_outputs/abc/../../secret.txt") = ["secret.txt"] ∧
    (resolveDots (pathComps "job_outputs/abc")).isPrefixOf
      (resolveDots (pathComps "job_outputs/abc/../../secret.txt")) = false := by
  decide

/-- C2: a worker whose durable status is `paused` is still served by
dispatch: on `pausedStore` the paused worker `w1` is handed the queued job,
which transitions to `running` assigned to `w1`. -/
theorem paused_worker_still_dispatched :
    ((pausedStore.workers.find? (fun w => w.id == "w1")).map Worker.status =
      some "paused") ∧
    (get_next_job_for_worker "w1" 2 pausedStore).1 = some smallJob ∧
    ∃ j ∈ ((get_next_job_for_worker "w1" 2 pausedStore).2).jobs,
      j.id = "j1" ∧ j.status = "running" ∧ j.workerId = some "w1" := by
  decide

/-- C4 counterexample: a second complete_job call on the already-completed
job `jd` succeeds and mutates it — result_output and completed_at are
overwritten, the owner is credited again and the worker counters are bumped
again. -/
theorem complete_job_overwrites_terminal :
    (complete_job "jd" (some "late") true none 9 doneStore).1 = true ∧
    (∃ j ∈ ((complete_job "jd" (some "late") true none 9 doneStore).2).jobs,
      j.id = "jd" ∧ j.resultOutput = some "late" ∧ j.completedAt = some 9) ∧
    (∃ u ∈ ((complete_job "jd" (some "late") true none 9 doneStore).2).users,
      u.id = "u2" ∧ u.credits = 108) ∧
    (∃ w ∈ ((complete_job "jd" (some "late") true none 9 doneStore).2).workers,
      w.id = "w1" ∧ w.totalJobsCompleted = 2 ∧ w.totalCreditsEarned = 16) ∧
    ((complete_job "jd" (some "late") true none 9 doneStore).2).transactions.length = 1 := by
  decide

/-- C9 counterexample: a restricted-mode execution that hits the subprocess
timeout is a failing execution whose captured-so-far stdout is nonempty,
yet the returned output field is the empty string. -/
theorem sandbox_timeout_discards_stdout :
    (runSandbox (.restricted 300 (.timedOut "partial output"))).success = false ∧
    (runSandbox (.restricted 300 (.timedOut "partial output"))).error.isSome = true ∧
    (runSandbox (.restricted 300 (.timedOut "partial output"))).output = "" ∧
    "partial output" ≠ "" := by
  decide

/-- C9 amended: every failing sandbox execution has success = false with a
populated error field, and the captured output is returned only in the
normal-exit cases; on a timeout or an internal error the output field is
empty. -/
theorem sandbox_failure_fields (r : SandboxRun)
    (h : (runSandbox r).success = false) : failedRunSpec r := by
  unfold failedRunSpec
  refine ⟨?_, ?_, ?_, ?_, ?_, ?_⟩
  · obtain ⟨t, o⟩ | ⟨o⟩ := r
    · cases o with
      | finished rc out err files =>
        have hrc : ¬ rc = 0 := by simpa [runSandbox, execute_restricted] using h
        simp [runSandbox, execute_restricted, hrc]
      | timedOut p => simp [runSandbox, execute_restricted]
      | internalError m => simp [runSandbox, execute_restricted]
    · cases o with
      | waited code logs files =>
        have hc : ¬ code = 0 := by simpa [runSandbox, execute_docker] using h
        simp [runSandbox, execute_docker, hc]
      | waitFailed m => simp [runSandbox, execute_docker]
  · rintro t rc out err files rfl
    have hrc : ¬ rc = 0 := by simpa [runSandbox, execute_restricted] using h
    exact ⟨hrc, rfl, by simp [runSandbox, execute_restricted, hrc]⟩
  · rintro t p rfl; rfl
  · rintro t m rfl; rfl
  · rintro code logs files rfl
    have hc : ¬ code = 0 := by simpa [runSandbox, execute_docker] using h
    exact ⟨hc, rfl⟩
  · rintro m rfl; rfl

/-- C9 amended, witness: a non-zero exit with captured output. -/
theorem sandbox_failure_fields_witness :
    failedRunSpec (.restricted 300 (.finished 1 "so far" "boom" [])) :=
  sandbox_failure_fields _ (by decide)

/-- C10: complete_job on a job id with no job row returns False and leaves
the store untouched. -/
theorem complete_job_missing_job (jobId : String) (resultOutput : Option String)
    (success : Bool) (errorLog : Option String) (now : Int) (s : Store)
    (h : s.jobs.find? (fun j => j.id == jobId) = none) :
    complete_job jobId resultOutput success errorLog now s = (false, s) := by
  unfold complete_job
  rw [h]

/-- C10 witness: completing an unknown job id on the fresh store. -/
theorem complete_job_missing_job_witness :
    complete_job "zz" none true none 0 initialStore = (false, initialStore) :=
  complete_job_missing_job "zz" none true none 0 initialStore rfl

/-- Helper: the cost of the spec's concrete example submission. -/
theorem cost_example : calculate_job_cost 2 1 0 300 = 15 := by
  norm_num [calculate_job_cost, pyInt]
  rfl

/-- Helper: equation of create_job on its success path. -/
theorem create_job_success_eq (title submitterId code : String) (req : Option String)
    (cpu : Int) (ram : ℚ) (gpu timeout priority : Int) (jobId : String) (now : Int)
    (s : Store) (u : User)
    (hu : get_user_by_id submitterId s = some u)
    (hcred : ¬ u.credits < calculate_job_cost cpu ram gpu timeout)
    (hdup : (s.jobs.any (fun j => j.id == jobId) ||
      s.jobQueue.any (fun q => q.jobId == jobId)) = false) :
    create_job title submitterId code req cpu ram gpu timeout priority jobId now s =
      ((some jobId, none),
        log_activity "job_created" (some submitterId) ("Job: " ++ title)
          { s with
            users := s.users.map (fun v =>
              if v.id == submitterId then
                { v with credits := v.credits - calculate_job_cost cpu ram gpu timeout }
              else v),
            jobs := s.jobs ++
              [{ id := jobId, title := title, submitterId := submitterId,
                 workerId := none, status := "pending", priority := priority,
                 code := code, requirements := req, cpuRequired := cpu,
                 ramRequiredGb := ram, gpuRequired := gpu, timeoutSeconds := timeout,
                 creditCost := calculate_job_cost cpu ram gpu timeout,
                 creditReward := calculate_job_cost cpu ram gpu timeout,
                 resultOutput := none, errorLog := none,
                 startedAt := none, completedAt := none }],
            jobQueue := s.jobQueue ++ [⟨jobId, priority, now⟩],
            transactions := s.transactions ++
              [⟨submitterId, -(calculate_job_cost cpu ram gpu timeout),
                "job_submitted", some jobId, some ("Submitted job: " ++ title)⟩] }) := by
  unfold create_job
  rw [hu]
  simp only [if_neg hcred, hdup, Bool.false_eq_true, if_false]

/-- C6: the cost function is the closed formula
`5 + 2·cpu + ⌊ram⌋ + 10·gpu + ⌊timeout/60⌋` on the nonnegative-RAM domain
(Python truncation agrees with floor there), the concrete example costs 15,
and every successfully submitted job carries reward = cost = that value. -/
theorem calculate_job_cost_spec :
    (∀ (cpu gpu timeout : Int) (ram : ℚ), 0 ≤ ram →
      calculate_job_cost cpu ram gpu timeout =
        5 + 2 * cpu + ⌊ram⌋ + 10 * gpu + ⌊(timeout : ℚ) / 60⌋) ∧
    calculate_job_cost 2 1 0 300 = 15 ∧
    (∀ (title submitterId code : String) (req : Option String) (cpu : Int) (ram : ℚ)
      (gpu timeout priority : Int) (jobId : String) (now : Int) (s : Store) (jid : String),
      (create_job title submitterId code req cpu ram gpu timeout priority jobId now s).1.1 =
        some jid →
      ∃ j ∈ ((create_job title submitterId code req cpu ram gpu timeout priority
          jobId now s).2).jobs,
        j.id = jid ∧ j.creditReward = j.creditCost ∧
        j.creditCost = calculate_job_cost cpu ram gpu timeout) := by
  refine ⟨?_, cost_example, ?_⟩
  · intro cpu gpu timeout ram h
    have h60 : ⌊(timeout : ℚ) / 60⌋ = Int.fdiv timeout 60 := by
      rw [Int.fdiv_eq_ediv _ (by norm_num : (0:ℤ) ≤ 60)]
      have h1 := Rat.floor_intCast_div_natCast timeout 60
      push_cast at h1
      rw [← h1]
    simp only [calculate_job_cost, pyInt, mul_one, if_pos h, h60]
    ring
  · intro title submitterId code req cpu ram gpu timeout priority jobId now s jid h
    rcases hu : get_user_by_id submitterId s with _ | u
    · rw [create_job] at h
      rw [hu] at h
      exact absurd h (by simp)
    · by_cases hcred : u.credits < calculate_job_cost cpu ram gpu timeout
      · rw [create_job] at h
        rw [hu] at h
        simp only [if_pos hcred] at h
        exact absurd h (by simp)
      · cases hdup : (s.jobs.any (fun j => j.id == jobId) ||
          s.jobQueue.any (fun q => q.jobId == jobId)) with
        | true =>
          rw [create_job] at h
          rw [hu] at h
          simp only [if_neg hcred, hdup, if_true] at h
          exact absurd h (by simp)
        | false =>
          rw [create_job_success_eq title submitterId code req cpu ram gpu timeout
            priority jobId now s u hu hcred hdup] at h ⊢
          obtain rfl : jobId = jid := by simpa using h
          refine ⟨submittedJob title submitterId code req cpu ram gpu timeout
            priority jobId, ?_, rfl, rfl, rfl⟩
          simp [log_activity, submittedJob]

/-- C6 witness: the formula at the spec's example arguments, and the
example submission's job carrying reward = cost. -/
theorem calculate_job_cost_spec_witness :
    ((0:ℚ) ≤ 1 ∧ calculate_job_cost 2 1 0 300 =
      5 + 2 * 2 + ⌊(1:ℚ)⌋ + 10 * 0 + ⌊(300 : ℚ) / 60⌋) ∧
    (∃ j ∈ ((create_job "t" "u1" "c" none 2 1 0 300 5 "jx" 7 usersStore).2).jobs,
      j.id = "jx" ∧ j.creditReward = j.creditCost ∧
      j.creditCost = calculate_job_cost 2 1 0 300) := by
  constructor
  · exact ⟨by norm_num, calculate_job_cost_spec.1 2 0 300 1 (by norm_num)⟩
  · refine calculate_job_cost_spec.2.2 "t" "u1" "c" none 2 1 0 300 5 "jx" 7 usersStore "jx" ?_
    rw [create_job_success_eq "t" "u1" "c" none 2 1 0 300 5 "jx" 7 usersStore alice
      rfl (by rw [cost_example]; decide) (by decide)]

/-- C7: with sufficient credits, create_job reports the job id, debits the
submitter by exactly the cost, inserts one pending job row with
reward = cost, one queue row, and one `job_submitted` transaction of minus
the cost. -/
theorem submit_job_effects (title submitterId code : String) (req : Option String)
    (cpu : Int) (ram : ℚ) (gpu timeout priority : Int) (jobId : String) (now : Int)
    (s : Store) (u : User)
    (hu : get_user_by_id submitterId s = some u)
    (hcred : ¬ u.credits < calculate_job_cost cpu ram gpu timeout)
    (hdup : (s.jobs.any (fun j => j.id == jobId) ||
      s.jobQueue.any (fun q => q.jobId == jobId)) = false) :
    submitSpec title submitterId code req cpu ram gpu timeout priority jobId now s := by
  unfold submitSpec
  rw [create_job_success_eq title submitterId code req cpu ram gpu timeout priority
    jobId now s u hu hcred hdup]
  refine ⟨rfl, by simp [log_activity],
    ⟨submittedJob title submitterId code req cpu ram gpu timeout priority jobId,
      by simp [log_activity, submittedJob], rfl, rfl, rfl, rfl, rfl⟩,
    by simp [log_activity], by simp [log_activity]⟩

/-- C7 witness: the spec's concrete scenario — user with 100 credits
submits cpu=2, ram=1, gpu=0, timeout=300; cost 15; balance becomes 85. -/
theorem submit_job_effects_witness :
    submitSpec "t" "u1" "c" none 2 1 0 300 5 "jx" 7 usersStore ∧
    (∃ v ∈ ((create_job "t" "u1" "c" none 2 1 0 300 5 "jx" 7 usersStore).2).users,
      v.id = "u1" ∧ v.credits = 85) := by
  constructor
  · exact submit_job_effects "t" "u1" "c" none 2 1 0 300 5 "jx" 7 usersStore alice
      rfl (by rw [cost_example]; decide) (by decide)
  · rw [create_job_success_eq "t" "u1" "c" none 2 1 0 300 5 "jx" 7 usersStore alice
      rfl (by rw [cost_example]; decide) (by decide)]
    rw [cost_example]
    decide

/-- C8: when the submitter is missing or short of credits, create_job
returns no job id with the reason string and the store is unchanged. -/
theorem create_job_refused (title submitterId code : String) (req : Option String)
    (cpu : Int) (ram : ℚ) (gpu timeout priority : Int) (jobId : String) (now : Int)
    (s : Store)
    (h : get_user_by_id submitterId s = none ∨
      ∃ u, get_user_by_id submitterId s = some u ∧
        u.credits < calculate_job_cost cpu ram gpu timeout) :
    create_job title submitterId code req cpu ram gpu timeout priority jobId now s =
      ((none, some "Insufficient credits"), s) := by
  unfold create_job
  rcases h with h | ⟨u, hu, hlt⟩
  · rw [h]
  · rw [hu]
    simp only [if_pos hlt]

/-- C8 witness: a user with 10 credits cannot afford the 15-credit job and
nothing changes. -/
theorem create_job_refused_witness :
    create_job "big" "u3" "c" none 2 1 0 300 5 "jy" 7 usersStore =
      ((none, some "Insufficient credits"), usersStore) :=
  create_job_refused "big" "u3" "c" none 2 1 0 300 5 "jy" 7 usersStore
    (Or.inr ⟨carol, rfl, by rw [cost_example]; decide⟩)

/-- C3 counterexample: immediately after create_user the new user's balance
is the 100-credit signup grant while no credit transaction exists, so the
balance does not equal the sum of the user's transaction amounts. -/
theorem created_user_balance_without_transaction :
    ∃ u ∈ ((create_user "alice" "pw" none "user" "u1" initialStore).2).users,
      u.credits ≠ txSum ((create_user "alice" "pw" none "user" "u1" initialStore).2).transactions u.id := by
  decide

/-- Helper: the Boolean ranking test decides the strict ranking order. -/
theorem betterEntry_eq_true_iff (a b : QueueEntry) :
    betterEntry a b = true ↔ ltEntry a b := by
  simp [betterEntry, ltEntry]

/-- Helper: the ranking order is irreflexive. -/
theorem ltEntry_irrefl (a : QueueEntry) : ¬ ltEntry a a := by
  unfold ltEntry
  omega

/-- Helper: the ranking order is transitive. -/
theorem ltEntry_trans {a b c : QueueEntry} :
    ltEntry a b → ltEntry b c → ltEntry a c := by
  unfold ltEntry
  omega

/-- Helper: anything ranked no better than `a` still beats whatever `a`
strictly beats. -/
theorem ltEntry_of_not_lt {a b c : QueueEntry} :
    ¬ ltEntry a b → ltEntry a c → ltEntry b c := by
  unfold ltEntry
  omega

/-- Helper: the running-maximum fold returns a member of the list that no
member strictly beats. -/
theorem foldl_pickBetter_spec (ps : List (Job × QueueEntry)) :
    ∀ p, (ps.foldl pickBetter p ∈ p :: ps) ∧
      ∀ x ∈ p :: ps, ¬ ltEntry x.2 (ps.foldl pickBetter p).2 := by
  induction ps with
  | nil =>
    intro p
    refine ⟨List.mem_cons_self _ _, ?_⟩
    intro x hx
    rcases List.mem_cons.mp hx with rfl | hx'
    · exact ltEntry_irrefl _
    · exact absurd hx' (List.not_mem_nil _)
  | cons q ps ih =>
    intro p
    rw [List.foldl_cons]
    obtain ⟨hmem, hmax⟩ := ih (pickBetter p q)
    refine ⟨?_, ?_⟩
    · rcases List.mem_cons.mp hmem with h | h
      · rw [h]
        by_cases hb : betterEntry q.2 p.2 <;> simp [pickBetter, hb]
      · exact List.mem_cons_of_mem _ (List.mem_cons_of_mem _ h)
    · intro x hx
      have h0 := hmax (pickBetter p q) (List.mem_cons_self _ _)
      have hq0 : ¬ ltEntry q.2 (ps.foldl pickBetter (pickBetter p q)).2 := by
        by_cases hb : betterEntry q.2 p.2
        · simpa [pickBetter, hb] using h0
        · intro hq
          have hqp : ¬ ltEntry q.2 p.2 := by
            simpa [betterEntry_eq_true_iff] using hb
          have hp0 : ¬ ltEntry p.2 (ps.foldl pickBetter (pickBetter p q)).2 := by
            simpa [pickBetter, hb] using h0
          exact hp0 (ltEntry_of_not_lt hqp hq)
      have hp0 : ¬ ltEntry p.2 (ps.foldl pickBetter (pickBetter p q)).2 := by
        by_cases hb : betterEntry q.2 p.2
        · intro hp
          have hqp : ltEntry q.2 p.2 := (betterEntry_eq_true_iff _ _).mp hb
          have hq1 : ¬ ltEntry q.2 (ps.foldl pickBetter (pickBetter p q)).2 := by
            simpa [pickBetter, hb] using h0
          exact hq1 (ltEntry_trans hqp hp)
        · simpa [pickBetter, hb] using h0
      rcases List.mem_cons.mp hx with heq | hx'
      · rw [heq]
        exact hp0
      rcases List.mem_cons.mp hx' with heq | hx''
      · rw [heq]
        exact hq0
      · exact hmax x (List.mem_cons_of_mem _ hx'')

/-- Helper: a selected row is one of the candidate rows. -/
theorem selectBest_mem {l : List (Job × QueueEntry)} {r : Job × QueueEntry}
    (h : selectBest l = some r) : r ∈ l := by
  cases l with
  | nil => exact absurd h (by simp [selectBest])
  | cons p ps =>
    obtain rfl : ps.foldl pickBetter p = r := by simpa [selectBest] using h
    exact (foldl_pickBetter_spec ps p).1

/-- Helper: no candidate row strictly beats the selected row. -/
theorem selectBest_max {l : List (Job × QueueEntry)} {r : Job × QueueEntry}
    (h : selectBest l = some r) : ∀ x ∈ l, ¬ ltEntry x.2 r.2 := by
  cases l with
  | nil => exact absurd h (by simp [selectBest])
  | cons p ps =>
    obtain rfl : ps.foldl pickBetter p = r := by simpa [selectBest] using h
    exact (foldl_pickBetter_spec ps p).2

/-- Helper: selection comes up empty only on the empty candidate list. -/
theorem selectBest_none {l : List (Job × QueueEntry)}
    (h : selectBest l = none) : l = [] := by
  cases l with
  | nil => rfl
  | cons p ps => exact absurd h (by simp [selectBest])

/-- Helper: membership in the jobs-queue join. -/
theorem mem_joinQueue {jobs : List Job} {queue : List QueueEntry}
    {j : Job} {q : QueueEntry} :
    (j, q) ∈ joinQueue jobs queue ↔ j ∈ jobs ∧ q ∈ queue ∧ q.jobId = j.id := by
  induction jobs with
  | nil => simp [joinQueue]
  | cons j0 js ih =>
    simp only [joinQueue, List.mem_append, List.mem_map, List.mem_filter,
      beq_iff_eq, ih, List.mem_cons, Prod.mk.injEq]
    constructor
    · rintro (⟨q0, ⟨hq0, hid⟩, rfl, rfl⟩ | ⟨hj, hq, hid⟩)
      · exact ⟨Or.inl rfl, hq0, hid⟩
      · exact ⟨Or.inr hj, hq, hid⟩
    · rintro ⟨rfl | hj, hq, hid⟩
      · exact Or.inl ⟨q, ⟨hq, hid⟩, rfl, rfl⟩
      · exact Or.inr ⟨hj, hq, hid⟩

/-- Helper: membership among the dispatch candidates. -/
theorem mem_dispatchCandidates {w : Worker} {s : Store} {j : Job} {q : QueueEntry} :
    (j, q) ∈ dispatchCandidates w s ↔
      j ∈ s.jobs ∧ q ∈ s.jobQueue ∧ q.jobId = j.id ∧ canRun w j = true := by
  simp only [dispatchCandidates, List.mem_filter, mem_joinQueue]
  tauto

/-- Helper: the dispatch WHERE clause, unfolded. -/
theorem canRun_iff {w : Worker} {j : Job} :
    canRun w j = true ↔
      j.status = "pending" ∧ j.cpuRequired ≤ w.cpuCores ∧
      j.ramRequiredGb ≤ w.ramGb ∧ (j.gpuRequired = 0 ∨ w.gpuName.isSome = true) := by
  simp [canRun, Bool.and_eq_true, Bool.or_eq_true, decide_eq_true_eq, and_assoc]

/-- C5: for any worker row, dispatch returns only a pending, cpu/ram/gpu
fitting job owning a queue row that no candidate beats under
`priority DESC, queued_at ASC`; in particular a gpu job never goes to a
gpu-less worker, and nothing is returned only when no candidate exists. -/
theorem dispatch_selection (workerId : String) (now : Int) (s : Store) (w : Worker)
    (hw : s.workers.find? (fun x => x.id == workerId) = some w) :
    dispatchSpec workerId now s w := by
  unfold dispatchSpec
  constructor
  · intro j hj
    rcases hsel : selectBest (dispatchCandidates w s) with _ | ⟨j0, q0⟩
    · simp [get_next_job_for_worker, hw, hsel] at hj
    · have hj0 : j0 = j := by
        simpa [get_next_job_for_worker, hw, hsel] using hj
      subst hj0
      have hc := mem_dispatchCandidates.mp (selectBest_mem hsel)
      obtain ⟨hjobs, hqmem, hqid, hcan⟩ := hc
      obtain ⟨hst, hcpu, hram, hgpu⟩ := canRun_iff.mp hcan
      refine ⟨hjobs, hst, hcpu, hram, hgpu, ?_, q0, hqmem, hqid, ?_⟩
      · intro hnone
        rcases hgpu with h0 | hs
        · exact h0
        · rw [hnone] at hs
          exact absurd hs (by simp)
      · exact fun p hp => selectBest_max hsel p hp
  · intro hnone
    rcases hsel : selectBest (dispatchCandidates w s) with _ | ⟨j0, q0⟩
    · exact selectBest_none hsel
    · simp [get_next_job_for_worker, hw, hsel] at hnone

/-- C5 witness: on `gateStore`, the gpu-less worker is served the fitting
lower-priority CPU job rather than the higher-priority GPU job. -/
theorem dispatch_selection_witness :
    dispatchSpec "w2" 3 gateStore plainWorker ∧
    (get_next_job_for_worker "w2" 3 gateStore).1 = some cpuJob :=
  ⟨dispatch_selection "w2" 3 gateStore plainWorker (by decide), by decide⟩

/-- Helper: txSum distributes over append. -/
theorem txSum_append (txs more : List CreditTransaction) (uid : String) :
    txSum (txs ++ more) uid = txSum txs uid + txSum more uid := by
  simp [txSum, List.filter_append]

/-- Helper: txSum of a single transaction. -/
theorem txSum_single (t : CreditTransaction) (uid : String) :
    txSum [t] uid = if t.userId == uid then t.amount else 0 := by
  by_cases h : (t.userId == uid) = true <;> simp [txSum, List.filter_cons, h]

/-- Helper: txSum vanishes when no transaction belongs to the user. -/
theorem txSum_eq_zero (txs : List CreditTransaction) (uid : String)
    (h : ∀ t ∈ txs, t.userId ≠ uid) : txSum txs uid = 0 := by
  have hf : txs.filter (fun t => t.userId == uid) = [] := by
    rw [List.filter_eq_nil_iff]
    intro t ht
    simpa using h t ht
  simp [txSum, hf]

/-- Helper: a credit change applied to the rows with one user id, paired
with a single matching transaction, preserves the balance invariant. -/
theorem creditInv_update (users : List User) (txs : List CreditTransaction)
    (uid : String) (amt : Int) (ty : String) (jid : Option String)
    (desc : Option String) (f : User → User)
    (hfid : ∀ u, (f u).id = u.id)
    (hfcred : ∀ u ∈ users, u.id = uid → (f u).credits = u.credits + amt)
    (hfother : ∀ u ∈ users, u.id ≠ uid → f u = u)
    (h : ∀ u ∈ users, u.credits = 100 + txSum txs u.id) :
    ∀ u' ∈ users.map f,
      u'.credits = 100 + txSum (txs ++ [⟨uid, amt, ty, jid, desc⟩]) u'.id := by
  intro u' hm
  obtain ⟨u, hu, rfl⟩ := List.mem_map.mp hm
  rw [hfid, txSum_append, txSum_single]
  by_cases heq : u.id = uid
  · have hbeq : (uid == u.id) = true := by simp [heq]
    rw [hbeq]
    simp only [if_true]
    rw [hfcred u hu heq, h u hu]
    ring
  · have hbeq : (uid == u.id) = false := by
      simp only [beq_eq_false_iff_ne, ne_eq]
      exact fun hh => heq hh.symm
    rw [hbeq]
    simp only [Bool.false_eq_true, if_false]
    rw [hfother u hu heq, h u hu]
    ring

/-- Helper: the invariant only reads users, workers and transactions. -/
theorem storeInv_congr {s s' : Store} (hu : s'.users = s.users)
    (hw : s'.workers = s.workers) (ht : s'.transactions = s.transactions)
    (h : storeInv s) : storeInv s' := by
  obtain ⟨h1, h2, h3⟩ := h
  refine ⟨?_, ?_, ?_⟩
  · intro t htm
    rw [ht] at htm
    obtain ⟨u, hum, hid⟩ := h1 t htm
    exact ⟨u, by rw [hu]; exact hum, hid⟩
  · intro w hwm oid hoid
    rw [hw] at hwm
    obtain ⟨u, hum, hid⟩ := h2 w hwm oid hoid
    exact ⟨u, by rw [hu]; exact hum, hid⟩
  · intro u hum
    rw [hu] at hum
    rw [ht]
    exact h3 u hum

/-- Helper: the fresh store satisfies the invariant. -/
theorem storeInv_initial : storeInv initialStore := by
  refine ⟨?_, ?_, ?_⟩ <;> intro x hx <;> simp [initialStore] at hx

/-- Helper: a user with a given id survives an id-preserving map. -/
theorem exists_id_in_map (users : List User) (f : User → User)
    (hfid : ∀ u, (f u).id = u.id) (oid : String) :
    (∃ u ∈ users, u.id = oid) → ∃ u ∈ users.map f, u.id = oid := by
  rintro ⟨u, hm, rfl⟩
  exact ⟨f u, List.mem_map_of_mem f hm, hfid u⟩

/-- Helper: credit-only user updates preserve every id. -/
theorem credit_update_id (x : String) (g : User → Int) (u : User) :
    ((fun v => if v.id == x then { v with credits := g v } else v) u).id = u.id := by
  by_cases hb : (u.id == x) = true <;> simp [hb]

/-- Helper: dispatch leaves users, workers and transactions untouched. -/
theorem dispatch_fields (wid : String) (now : Int) (s : Store) :
    ((get_next_job_for_worker wid now s).2).users = s.users ∧
    ((get_next_job_for_worker wid now s).2).workers = s.workers ∧
    ((get_next_job_for_worker wid now s).2).transactions = s.transactions := by
  unfold get_next_job_for_worker
  rcases hf : s.workers.find? (fun w => w.id == wid) with _ | w
  · simp [hf]
  · rcases hsel : selectBest (dispatchCandidates w s) with _ | ⟨j, q⟩
    · simp [hf, hsel]
    · simp [hf, hsel, log_activity]

/-- Helper: every store operation preserves the balance/reference
invariant. -/
theorem storeInv_applyOp (o : Op) (s : Store) (h : storeInv s) :
    storeInv (applyOp o s) := by
  obtain ⟨h1, h2, h3⟩ := h
  cases o with
  | createUser un pw em role uid =>
    show storeInv (create_user un pw em role uid s).2
    by_cases hdup : (s.users.any (fun u => u.username == un || u.id == uid)) = true
    · simp only [create_user, hdup, if_true]
      exact ⟨h1, h2, h3⟩
    · have hdup' : (s.users.any fun u => u.username == un || u.id == uid) = false := by
        simpa using hdup
      simp only [create_user, hdup', Bool.false_eq_true, if_false, log_activity]
      refine ⟨?_, ?_, ?_⟩
      · intro t htm
        obtain ⟨u, hum, hid⟩ := h1 t htm
        exact ⟨u, List.mem_append_left _ hum, hid⟩
      · intro w hwm oid hoid
        obtain ⟨u, hum, hid⟩ := h2 w hwm oid hoid
        exact ⟨u, List.mem_append_left _ hum, hid⟩
      · intro u hum
        rcases List.mem_append.mp hum with hold | hnew
        · exact h3 u hold
        · have hu : u = ⟨uid, un, pw, em, 100, role⟩ := by simpa using hnew
          subst hu
          have hz : txSum s.transactions uid = 0 := by
            apply txSum_eq_zero
            intro t ht hteq
            obtain ⟨v, hvm, hvid⟩ := h1 t ht
            have hvuid : v.id = uid := by rw [hvid, hteq]
            have hvfalse := (List.any_eq_false.mp hdup') v hvm
            simp [hvuid] at hvfalse
          simp [hz]
  | updateCredits uid amt ty jid desc =>
    show storeInv (update_user_credits uid amt ty jid desc s).2
    unfold update_user_credits
    rcases hf : s.users.find? (fun u => u.id == uid) with _ | user
    · simp only [hf]
      exact ⟨h1, h2, h3⟩
    · have huser : user ∈ s.users := List.mem_of_find?_eq_some hf
      have hiduser : user.id = uid := by simpa using List.find?_some hf
      simp only [hf]
      by_cases hneg : user.credits + amt < 0
      · simp only [if_pos hneg]
        exact ⟨h1, h2, h3⟩
      · simp only [if_neg hneg]
        have hfid : ∀ u : User,
            ((fun v => if v.id == uid then { v with credits := user.credits + amt } else v) u).id
              = u.id := by
          intro u
          by_cases hb : (u.id == uid) = true <;> simp [hb]
        refine ⟨?_, ?_, ?_⟩
        · intro t htm
          rcases List.mem_append.mp htm with hold | hnew
          · obtain ⟨u, hum, hid⟩ := h1 t hold
            exact exists_id_in_map _ _ hfid _ ⟨u, hum, hid⟩
          · have ht : t = ⟨uid, amt, ty, jid, desc⟩ := by simpa using hnew
            subst ht
            exact exists_id_in_map _ _ hfid _ ⟨user, huser, hiduser⟩
        · intro w hwm oid hoid
          obtain ⟨u, hum, hid⟩ := h2 w hwm oid hoid
          exact exists_id_in_map _ _ hfid _ ⟨u, hum, hid⟩
        · apply creditInv_update s.users s.transactions uid amt ty jid desc _ hfid ?_ ?_ h3
          · intro u hum hid
            have hbu : (u.id == uid) = true := by simp [hid]
            simp only [hbu, if_true]
            have e1 := h3 user huser
            have e2 := h3 u hum
            rw [e1, e2, hiduser, hid]
          · intro u hum hid
            have hbu : (u.id == uid) = false := by simp [hid]
            simp [hbu]
  | submitJob title sub code req cpu ram gpu tmo pr jid now =>
    show storeInv (create_job title sub code req cpu ram gpu tmo pr jid now s).2
    rcases hu : get_user_by_id sub s with _ | user
    · unfold create_job
      rw [hu]
      exact ⟨h1, h2, h3⟩
    · have huser : user ∈ s.users := List.mem_of_find?_eq_some hu
      have hiduser : user.id = sub := by simpa using List.find?_some hu
      by_cases hlt : user.credits < calculate_job_cost cpu ram gpu tmo
      · unfold create_job
        rw [hu]
        simp only [if_pos hlt]
        exact ⟨h1, h2, h3⟩
      · cases hdup : (s.jobs.any (fun j => j.id == jid) ||
          s.jobQueue.any (fun q => q.jobId == jid)) with
        | true =>
          unfold create_job
          rw [hu]
          simp only [if_neg hlt, hdup, if_true]
          exact ⟨h1, h2, h3⟩
        | false =>
          rw [create_job_success_eq title sub code req cpu ram gpu tmo pr jid now s
            user hu hlt hdup]
          simp only [log_activity]
          have hfid : ∀ u : User,
              ((fun v => if v.id == sub then
                { v with credits := v.credits - calculate_job_cost cpu ram gpu tmo }
                else v) u).id = u.id := by
            intro u
            by_cases hb : (u.id == sub) = true <;> simp [hb]
          refine ⟨?_, ?_, ?_⟩
          · intro t htm
            rcases List.mem_append.mp htm with hold | hnew
            · obtain ⟨u, hum, hid⟩ := h1 t hold
              exact exists_id_in_map _ _ hfid _ ⟨u, hum, hid⟩
            · have ht : t = ⟨sub, -(calculate_job_cost cpu ram gpu tmo),
                "job_submitted", some jid, some ("Submitted job: " ++ title)⟩ := by
                simpa using hnew
              subst ht
              exact exists_id_in_map _ _ hfid _ ⟨user, huser, hiduser⟩
          · intro w hwm oid hoid
            obtain ⟨u, hum, hid⟩ := h2 w hwm oid hoid
            exact exists_id_in_map _ _ hfid _ ⟨u, hum, hid⟩
          · apply creditInv_update s.users s.transactions sub
              (-(calculate_job_cost cpu ram gpu tmo)) "job_submitted" (some jid)
              (some ("Submitted job: " ++ title)) _ hfid ?_ ?_ h3
            · intro u hum hid
              have hbu : (u.id == sub) = true := by simp [hid]
              simp only [hbu, if_true]
              ring
            · intro u hum hid
              have hbu : (u.id == sub) = false := by simp [hid]
              simp [hbu]
  | registerWorker n tok cc cm ram gn gm hd wid =>
    show storeInv (register_worker n (verify_owner tok s) cc cm ram gn gm hd wid s).2
    simp only [register_worker, log_activity]
    refine ⟨h1, ?_, h3⟩
    intro w hwm oid hoid
    rcases List.mem_append.mp hwm with hold | hnew
    · exact h2 w hold oid hoid
    · have hw : w = ⟨wid, n, verify_owner tok s, "offline", cc, cm, ram, gn, gm, hd, 0, 0⟩ := by
        simpa using hnew
      subst hw
      simp only at hoid
      unfold verify_owner at hoid
      by_cases htok : (tok == "") = true
      · rw [if_pos htok] at hoid
        exact absurd hoid (by simp)
      · rw [if_neg htok] at hoid
        rcases hg : get_user_by_username tok s with _ | u
        · rw [hg] at hoid
          exact absurd hoid (by simp)
        · rw [hg] at hoid
          have : u.id = oid := by simpa using hoid
          exact ⟨u, List.mem_of_find?_eq_some hg, this⟩
  | dispatch wid now =>
    obtain ⟨e1, e2, e3⟩ := dispatch_fields wid now s
    exact storeInv_congr e1 e2 e3 ⟨h1, h2, h3⟩
  | completeJob jid out succ err now =>
    show storeInv (complete_job jid out succ err now s).2
    unfold complete_job
    rcases hf : s.jobs.find? (fun j => j.id == jid) with _ | job
    · simp only [hf]
      exact ⟨h1, h2, h3⟩
    · simp only [hf]
      cases succ with
      | false =>
        simp only [Bool.false_eq_true, if_false, log_activity]
        exact ⟨h1, h2, h3⟩
      | true =>
        simp only [if_true, log_activity]
        rcases hwid : job.workerId with _ | wid
        · simp only [hwid]
          exact ⟨h1, h2, h3⟩
        · simp only [hwid]
          rcases hwrk : s.workers.find? (fun w => w.id == wid) with _ | worker
          · simp only [hwrk]
            exact ⟨h1, h2, h3⟩
          · simp only [hwrk]
            rcases hoid : worker.ownerId with _ | ownerId
            · simp only [hoid]
              exact ⟨h1, h2, h3⟩
            · simp only [hoid]
              have howner : ∃ u ∈ s.users, u.id = ownerId :=
                h2 worker (List.mem_of_find?_eq_some hwrk) ownerId hoid
              have hfid : ∀ u : User,
                  ((fun v => if v.id == ownerId then
                    { v with credits := v.credits + job.creditReward } else v) u).id
                    = u.id := by
                intro u
                by_cases hb : (u.id == ownerId) = true <;> simp [hb]
              refine ⟨?_, ?_, ?_⟩
              · intro t htm
                rcases List.mem_append.mp htm with hold | hnew
                · obtain ⟨u, hum, hid⟩ := h1 t hold
                  exact exists_id_in_map _ _ hfid _ ⟨u, hum, hid⟩
                · have ht : t = ⟨ownerId, job.creditReward, "job_completed",
                    some jid, some ("Completed job: " ++ job.title)⟩ := by
                    simpa using hnew
                  subst ht
                  exact exists_id_in_map _ _ hfid _ howner
              · intro w hwm oid hoid2
                obtain ⟨w0, hw0, rfl⟩ := List.mem_map.mp hwm
                have hw0oid : w0.ownerId = some oid := by
                  by_cases hb : (w0.id == wid) = true
                  · simpa [hb] using hoid2
                  · simpa [hb] using hoid2
                obtain ⟨u, hum, hid⟩ := h2 w0 hw0 oid hw0oid
                exact exists_id_in_map _ _ hfid _ ⟨u, hum, hid⟩
              · apply creditInv_update s.users s.transactions ownerId job.creditReward
                  "job_completed" (some jid) (some ("Completed job: " ++ job.title))
                  _ hfid ?_ ?_ h3
                · intro u hum hid
                  have hbu : (u.id == ownerId) = true := by simp [hid]
                  simp [hbu]
                · intro u hum hid
                  have hbu : (u.id == ownerId) = false := by simp [hid]
                  simp [hbu]
  | pauseWorker wid =>
    show storeInv (pause_worker wid s).2
    simp only [pause_worker]
    refine ⟨h1, ?_, h3⟩
    intro w hwm oid hoid
    obtain ⟨w0, hw0, rfl⟩ := List.mem_map.mp hwm
    have hw0oid : w0.ownerId = some oid := by
      by_cases hb : (w0.id == wid) = true
      · simpa [hb] using hoid
      · simpa [hb] using hoid
    exact h2 w0 hw0 oid hw0oid
  | resumeWorker wid =>
    show storeInv (resume_worker wid s).2
    simp only [resume_worker]
    refine ⟨h1, ?_, h3⟩
    intro w hwm oid hoid
    obtain ⟨w0, hw0, rfl⟩ := List.mem_map.mp hwm
    have hw0oid : w0.ownerId = some oid := by
      by_cases hb : (w0.id == wid) = true
      · simpa [hb] using hoid
      · simpa [hb] using hoid
    exact h2 w0 hw0 oid hw0oid

/-- Helper: the invariant holds after any operation sequence from the
fresh store. -/
theorem storeInv_applyOps (ops : List Op) : storeInv (applyOps ops initialStore) := by
  have hgen : ∀ (l : List Op) (s : Store), storeInv s → storeInv (applyOps l s) := by
    intro l
    induction l with
    | nil => exact fun s hs => hs
    | cons o os ih => exact fun s hs => ih _ (storeInv_applyOp o s hs)
  exact hgen ops initialStore storeInv_initial

/-- C3 amended: after any operation sequence, each user's balance is the
100-credit signup grant plus the signed sum of that user's transactions. -/
theorem balance_is_signup_plus_transactions (ops : List Op) :
    ∀ u ∈ (applyOps ops initialStore).users,
      u.credits = 100 + txSum (applyOps ops initialStore).transactions u.id :=
  (storeInv_applyOps ops).2.2

/-- C3 amended, witness: the single-registration sequence. -/
theorem balance_is_signup_plus_transactions_witness :
    alice ∈ (applyOps [Op.createUser "alice" "pw" none "user" "u1"] initialStore).users ∧
    alice.credits = 100 +
      txSum (applyOps [Op.createUser "alice" "pw" none "user" "u1"] initialStore).transactions
        alice.id :=
  ⟨by decide, balance_is_signup_plus_transactions _ alice (by decide)⟩

/-- Helper: update_user_credits never touches the jobs table. -/
theorem update_user_credits_jobs (uid : String) (amt : Int) (ty : String)
    (jid : Option String) (desc : Option String) (s : Store) :
    ((update_user_credits uid amt ty jid desc s).2).jobs = s.jobs := by
  unfold update_user_credits
  rcases hf : s.users.find? (fun u => u.id == uid) with _ | user
  · simp [hf]
  · simp only [hf]
    by_cases hneg : user.credits + amt < 0 <;> simp [hneg]

/-- Helper: create_user never touches the jobs table. -/
theorem create_user_jobs (un pw : String) (em : Option String) (role uid : String)
    (s : Store) : ((create_user un pw em role uid s).2).jobs = s.jobs := by
  unfold create_user
  by_cases hdup : (s.users.any (fun u => u.username == un || u.id == uid)) = true <;>
    simp [hdup, log_activity]

/-- Helper: jobs table after complete_job on a found job. -/
theorem complete_job_jobs (jid : String) (out : Option String) (succ : Bool)
    (err : Option String) (now : Int) (s : Store) (job : Job)
    (hf : s.jobs.find? (fun j => j.id == jid) = some job) :
    ((complete_job jid out succ err now s).2).jobs = s.jobs.map (fun j =>
      if j.id == jid then
        { j with status := if succ then "completed" else "failed",
                 resultOutput := out, errorLog := err, completedAt := some now }
      else j) := by
  unfold complete_job
  simp only [hf]
  cases succ with
  | false => simp [log_activity]
  | true =>
    rcases hwid : job.workerId with _ | wid
    · simp [hwid, log_activity]
    · rcases hwrk : s.workers.find? (fun w => w.id == wid) with _ | worker
      · simp [hwid, hwrk, log_activity]
      · rcases hoid : worker.ownerId with _ | oid
        · simp [hwid, hwrk, hoid, log_activity]
        · simp [hwid, hwrk, hoid, log_activity]

/-- Helper: jobs table after a successful dispatch. -/
theorem dispatch_jobs (wid : String) (now : Int) (s : Store) (w : Worker)
    (j0 : Job) (q0 : QueueEntry)
    (hw : s.workers.find? (fun x => x.id == wid) = some w)
    (hsel : selectBest (dispatchCandidates w s) = some (j0, q0)) :
    ((get_next_job_for_worker wid now s).2).jobs = s.jobs.map (fun j =>
      if j.id == j0.id then
        { j with status := "running", workerId := some wid, startedAt := some now }
      else j) := by
  unfold get_next_job_for_worker
  simp [hw, hsel, log_activity]

/-- C4 amended: once every row of a job id is terminal, no operation ever
moves that id back to `pending` or `running` — dispatch only selects
pending jobs with queue rows and complete_job only writes terminal
statuses (though it does overwrite the terminal fields). -/
theorem terminal_job_never_rescheduled (o : Op) (s : Store) (jobId : String)
    (hex : ∃ j ∈ s.jobs, j.id = jobId)
    (hterm : terminalAt s jobId) :
    terminalAt (applyOp o s) jobId := by
  intro j' hj' hid'
  cases o with
  | createUser un pw em role uid =>
    simp only [applyOp] at hj'
    rw [create_user_jobs] at hj'
    exact hterm j' hj' hid'
  | updateCredits uid amt ty jid desc =>
    simp only [applyOp] at hj'
    rw [update_user_credits_jobs] at hj'
    exact hterm j' hj' hid'
  | registerWorker n tok cc cm ram gn gm hd wid =>
    exact hterm j' hj' hid'
  | pauseWorker wid =>
    exact hterm j' hj' hid'
  | resumeWorker wid =>
    exact hterm j' hj' hid'
  | submitJob title sub code req cpu ram gpu tmo pr jid2 now =>
    simp only [applyOp] at hj'
    rcases hu : get_user_by_id sub s with _ | user
    · unfold create_job at hj'
      rw [hu] at hj'
      exact hterm j' hj' hid'
    · by_cases hlt : user.credits < calculate_job_cost cpu ram gpu tmo
      · unfold create_job at hj'
        rw [hu] at hj'
        simp only [if_pos hlt] at hj'
        exact hterm j' hj' hid'
      · cases hdup : (s.jobs.any (fun j => j.id == jid2) ||
          s.jobQueue.any (fun q => q.jobId == jid2)) with
        | true =>
          unfold create_job at hj'
          rw [hu] at hj'
          simp only [if_neg hlt, hdup, if_true] at hj'
          exact hterm j' hj' hid'
        | false =>
          rw [create_job_success_eq title sub code req cpu ram gpu tmo pr jid2 now s
            user hu hlt hdup] at hj'
          simp only [log_activity] at hj'
          rcases List.mem_append.mp hj' with hold | hnew
          · exact hterm j' hold hid'
          · have hnewid : j'.id = jid2 := by
              have hj'eq := List.mem_singleton.mp hnew
              rw [hj'eq]
            obtain ⟨j0, hj0, hj0id⟩ := hex
            have hdups : s.jobs.any (fun j => j.id == jid2) = false ∧
                s.jobQueue.any (fun q => q.jobId == jid2) = false := by
              simpa using hdup
            have hne := List.any_eq_false.mp hdups.1 j0 hj0
            exfalso
            apply hne
            have hj2 : jobId = jid2 := by rw [← hid', hnewid]
            simp [hj0id, hj2]
  | dispatch wid now =>
    rcases hw : s.workers.find? (fun x => x.id == wid) with _ | w
    · simp only [applyOp] at hj'
      unfold get_next_job_for_worker at hj'
      rw [hw] at hj'
      exact hterm j' hj' hid'
    · rcases hsel : selectBest (dispatchCandidates w s) with _ | ⟨j0, q0⟩
      · simp only [applyOp] at hj'
        unfold get_next_job_for_worker at hj'
        rw [hw] at hj'
        simp only [hsel] at hj'
        exact hterm j' hj' hid'
      · simp only [applyOp] at hj'
        rw [dispatch_jobs wid now s w j0 q0 hw hsel] at hj'
        obtain ⟨j1, hj1, rfl⟩ := List.mem_map.mp hj'
        have hc := mem_dispatchCandidates.mp (selectBest_mem hsel)
        have hpend : j0.status = "pending" := (canRun_iff.mp hc.2.2.2).1
        by_cases hb : (j1.id == j0.id) = true
        · exfalso
          have hid1 : j1.id = jobId := by simpa [hb] using hid'
          have hj0id : j0.id = jobId := by
            rw [← (by simpa using hb : j1.id = j0.id)]
            exact hid1
          rcases hterm j0 hc.1 hj0id with hc1 | hc1 <;>
            · rw [hpend] at hc1
              exact absurd hc1 (by decide)
        · simp only [hb, Bool.false_eq_true, if_false] at hid' ⊢
          exact hterm j1 hj1 hid'
  | completeJob cjid out succ err now =>
    rcases hf : s.jobs.find? (fun j => j.id == cjid) with _ | job
    · simp only [applyOp] at hj'
      unfold complete_job at hj'
      rw [hf] at hj'
      exact hterm j' hj' hid'
    · simp only [applyOp] at hj'
      rw [complete_job_jobs cjid out succ err now s job hf] at hj'
      obtain ⟨j1, hj1, rfl⟩ := List.mem_map.mp hj'
      by_cases hb : (j1.id == cjid) = true
      · cases succ <;> simp [hb]
      · simp only [hb, Bool.false_eq_true, if_false] at hid' ⊢
        exact hterm j1 hj1 hid'

/-- C4 amended, witness: re-completing the already-completed job keeps it
terminal. -/
theorem terminal_job_never_rescheduled_witness :
    terminalAt (applyOp (Op.completeJob "jd" (some "late") true none 9) doneStore) "jd" :=
  terminal_job_never_rescheduled _ doneStore "jd" (by decide)
    (by
      intro j hj hid
      have hje : j = doneJob := by simpa [doneStore] using hj
      subst hje
      exact Or.inl rfl)

end P2PGrid
